import Mathlib

/-!
Verification development for the `react-sub` subscription-batching library
(`src/manager.ts`, together with `src/watch.ts` and `src/config.ts`).

The TypeScript code is shallowly embedded:

* a JS `Record<string, Q>` object is modelled as `Rcd Q`, an insertion-ordered
  association list whose operations mirror the JS object primitives
  (`Rcd.set` is property assignment, which overwrites the value in place when
  the key is present; `Rcd.delete` is the `delete` operator; `Rcd.hasKey` is
  `hasOwnProperty`; `Rcd.keys` is `Object.keys`);
* the mutable fields of a `SubscriptionManager` instance become the record
  `ManagerState`; each method becomes a function from state to state that
  additionally reports the externally observable effects of the call
  (callback invocations, deferral-function invocations, reset registrations);
* the injected `get` callback may throw, so it is modelled as
  `Q → Except E T`; the injected `subscribe`/`unsubscribe` callbacks are not
  interpreted: the reconciliation returns the list of calls it makes
  (`Event Q`), each carrying a snapshot of the manager fields at the moment
  of the call;
* the configured `queryToString` is modelled as a total function
  `Q → String` (the generic manager model assumes the codec succeeds on the
  queries in use; the default codec and its failure modes are modelled
  separately as `defaultQueryToString` over `JSValue`);
* `getCurrentContext()` (the module-level ambient context of `watch.ts`) and
  the optional explicit `context` argument are passed as `Option` parameters;
* thrown errors are `Except` results; a JS `throw` aborts the method before
  any later field assignment, so the error branches return the entry state
  unchanged, mirroring the source line by line.
-/

set_option autoImplicit false

namespace ReactSub

universe u

variable {Q : Type u}

/-- Model of a JS `Record<string, ·>` object: an insertion-ordered list of
key/value pairs. All operations below preserve uniqueness of keys, as JS
objects do. -/
abbrev Rcd (Q : Type u) : Type u := List (String × Q)

namespace Rcd

/-- The `hasOwnProperty`: does the record contain the key? -/
def hasKey (r : Rcd Q) (k : String) : Bool :=
  r.any (fun p => p.1 = k)

/-- Property assignment `r[k] = v`: overwrite in place if the key is present
(JS keeps the original insertion position), otherwise append. -/
def set (r : Rcd Q) (k : String) (v : Q) : Rcd Q :=
  match r with
  | [] => [(k, v)]
  | p :: rest => if p.1 = k then (k, v) :: rest else p :: set rest k v

/-- The JS `delete r[k]` operator. -/
def delete (r : Rcd Q) (k : String) : Rcd Q :=
  r.filter (fun p => ¬ p.1 = k)

/-- Property lookup `r[k]` (first binding; keys are unique in JS objects). -/
def get? (r : Rcd Q) (k : String) : Option Q :=
  match r with
  | [] => none
  | p :: rest => if p.1 = k then some p.2 else get? rest k

/-- The `Object.keys`. -/
def keys (r : Rcd Q) : List String :=
  r.map Prod.fst

/-- The `Object.values` (used to phrase what the batched callbacks receive). -/
def values (r : Rcd Q) : List Q :=
  r.map Prod.snd

end Rcd

/-! ## The default query codec (`defaultQueryToString`, manager.ts 51-58)

`defaultQueryToString` branches on the dynamic shape of an arbitrary JS
value, so it is modelled over an explicit type `JSValue` of JS values. An
object is abstracted to the three observations the function makes of it:
whether it has a `key` attribute holding a string (and which), whether
`hasOwnProperty` reports an own `toString` member, and what calling
`toString()` returns. Numbers are modelled as integers (falsy iff zero).
Objects are always truthy; primitives other than strings and objects have no
`key` string attribute and no own `toString` property. -/

inductive JSValue : Type where
  | str (s : String)
  | undefined
  | null
  | boolean (b : Bool)
  | number (n : Int)
  | object (keyAttr : Option String) (hasOwnToString : Bool) (toStringVal : String)

namespace JSValue

/-- JS truthiness of the modelled values. -/
def truthy : JSValue → Bool
  | .str s => ¬ s = ""
  | .undefined => false
  | .null => false
  | .boolean b => b
  | .number n => ¬ n = 0
  | .object _ _ _ => true

/-- True iff the value is a JS string (the typeof check of manager.ts 52). -/
def isString : JSValue → Bool
  | .str _ => true
  | _ => false

/-- True iff the value is undefined (the typeof check of manager.ts 53). -/
def isUndefined : JSValue → Bool
  | .undefined => true
  | _ => false

/-- The `key` attribute when it exists and holds
a string; `none` for primitives and for objects without a string `key`. -/
def keyAttr : JSValue → Option String
  | .object a _ _ => a
  | _ => none

/-- The hasOwnProperty check of manager.ts 56: only objects can carry an own
`toString` member. -/
def hasOwnToString : JSValue → Bool
  | .object _ t _ => t
  | _ => false

/-- Result of `q.toString()` for an object. -/
def toStringVal : JSValue → String
  | .object _ _ s => s
  | _ => ""

end JSValue

/-- Error message of manager.ts line 54. -/
def falseyQueryMsg : String := "Unable to convert falsey query to string"

/-- Error message of manager.ts line 57. -/
def noStringFormMsg : String := "Unable to convert query to string"

/-- The `defaultQueryToString` (manager.ts 51-58), with `throw` as `.error`. -/
def defaultQueryToString (q : JSValue) : Except String String :=
  match q with
  | .str s => .ok s
  | .undefined => .ok ""
  | _ =>
    if ¬ q.truthy then .error falseyQueryMsg
    else
      match q.keyAttr with
      | some k => .ok k
      | none =>
        if q.hasOwnToString then .ok q.toStringVal
        else .error noStringFormMsg

/-! ## The manager state and its operations (manager.ts 73-283) -/

/-- The slice of `BaseSubscriptionContext` (watch.ts) that the manager
observes: its process-unique `id`. `registerReset` and `forceUpdate` calls
on a context are reported as effects of the manager operations. -/
structure BaseSubscriptionContext : Type where
  id : String
deriving DecidableEq, Repr

/-- The mutable fields of a `SubscriptionManager` instance
(manager.ts 88-97). -/
structure ManagerState (Q : Type u) : Type u where
  /-- Map from context ID to a map of watched queries (manager.ts 88). -/
  watchedQueryKeysByContextId : Rcd (Rcd Q)
  /-- Map from context ID to context instances (manager.ts 91). -/
  watchedContexts : Rcd BaseSubscriptionContext
  /-- Map of stringified query keys currently subscribed to
  (manager.ts 94). -/
  subscribedQueryKeys : Rcd Q
  /-- Guards against concurrent pending subscription updates
  (manager.ts 97). -/
  pendingSubscriptionUpdate : Bool
deriving Repr

/-- A call made by `updateSubscriptions` to one of the injected batch
callbacks, with the queries passed and a snapshot of the manager fields
`subscribedQueryKeys` / `pendingSubscriptionUpdate` at the moment of the
call. -/
inductive Event (Q : Type u) : Type u where
  | unsubscribeCall (queries : List Q) (subscribedAtCall : Rcd Q)
      (pendingAtCall : Bool)
  | subscribeCall (queries : List Q) (subscribedAtCall : Rcd Q)
      (pendingAtCall : Bool)
deriving DecidableEq

namespace Event

def isSubscribe : Event Q → Bool
  | .subscribeCall _ _ _ => true
  | .unsubscribeCall _ _ _ => false

def queries : Event Q → List Q
  | .subscribeCall qs _ _ => qs
  | .unsubscribeCall qs _ _ => qs

def subscribedAtCall : Event Q → Rcd Q
  | .subscribeCall _ s _ => s
  | .unsubscribeCall _ s _ => s

def pendingAtCall : Event Q → Bool
  | .subscribeCall _ _ p => p
  | .unsubscribeCall _ _ p => p

end Event

/-- Error message of manager.ts line 136 (without the interpolated method
name). -/
def outsideContextMsg : String := "Called outside a valid subscription context"

/-- The `getContext` (manager.ts 133-139): `context || getCurrentContext()`,
then the `noGetOutsideContext` misuse check. `ambient` models the value of
`getCurrentContext()`; `context` is the optional explicit argument. -/
def getContext (noGetOutsideContext : Bool)
    (ambient : Option BaseSubscriptionContext)
    (context : Option BaseSubscriptionContext) :
    Except String (Option BaseSubscriptionContext) :=
  let currentContext := match context with
    | some c => some c
    | none => ambient
  if currentContext.isNone && noGetOutsideContext then
    .error outsideContextMsg
  else
    .ok currentContext

/-- The `registerQuery` (manager.ts 147-163). `toString` is the manager's
`queryToString` (config override or default, assumed total here). Returns
the new state and whether `context.registerReset(this.reset)` was called
(true iff the context's watched-key map was missing or empty). -/
def registerQuery (toString : Q → String) (s : ManagerState Q)
    (context : BaseSubscriptionContext) (query : Q) :
    ManagerState Q × Bool :=
  let id := context.id
  let key := toString query
  -- `let queryKeys = this.watchedQueryKeysByContextId[id]` with the
  -- `if (!queryKeys) queryKeys = {}` guard
  let queryKeys := (Rcd.get? s.watchedQueryKeysByContextId id).getD []
  -- `if (!Object.keys(queryKeys).length) context.registerReset(this.reset)`
  let resetRegistered := (Rcd.keys queryKeys).length = 0
  -- `this.watchedQueryKeysByContextId[id][key] = query`
  -- `this.watchedContexts[id] = context`
  ({ s with
      watchedQueryKeysByContextId :=
        Rcd.set s.watchedQueryKeysByContextId id (Rcd.set queryKeys key query)
      watchedContexts := Rcd.set s.watchedContexts id context },
   resetRegistered)

/-- The `scheduleSubscriptionUpdate` (manager.ts 234-242). The returned `Nat`
counts invocations of the deferral function (`config.updateSubscription`
or `requestAnimationFrame`) made by this call. -/
def scheduleSubscriptionUpdate (s : ManagerState Q) : ManagerState Q × Nat :=
  if s.pendingSubscriptionUpdate then (s, 0)
  else ({ s with pendingSubscriptionUpdate := true }, 1)

/-- The `reset` (manager.ts 170-175): drop the context's watched queries and
dispatch entry, then schedule a reconciliation. -/
def reset (s : ManagerState Q) (context : BaseSubscriptionContext) :
    ManagerState Q × Nat :=
  scheduleSubscriptionUpdate
    { s with
        watchedQueryKeysByContextId :=
          Rcd.delete s.watchedQueryKeysByContextId context.id
        watchedContexts := Rcd.delete s.watchedContexts context.id }

/-- Body of the inner `forEach` of manager.ts 193-200: record the pair in
`keysBeingWatched` and, when not already subscribed, in `toSubscribe`. -/
def gatherStep (subscribed : Rcd Q) (acc : Rcd Q × Rcd Q)
    (kq : String × Q) : Rcd Q × Rcd Q :=
  (Rcd.set acc.1 kq.1 kq.2,
   if Rcd.hasKey subscribed kq.1 then acc.2 else Rcd.set acc.2 kq.1 kq.2)

/-- The nested `forEach` of manager.ts 191-201, building `keysBeingWatched`
(first component) and `toSubscribe` (second component). -/
def gather (subscribed : Rcd Q) (watched : Rcd (Rcd Q)) : Rcd Q × Rcd Q :=
  watched.foldl (fun acc entry => entry.2.foldl (gatherStep subscribed) acc)
    ([], [])

/-- The `keysBeingWatched` as computed by `updateSubscriptions` on state `s`. -/
def keysBeingWatchedOf (s : ManagerState Q) : Rcd Q :=
  (gather s.subscribedQueryKeys s.watchedQueryKeysByContextId).1

/-- The `toSubscribe` as computed by `updateSubscriptions` on state `s`. -/
def toSubscribeOf (s : ManagerState Q) : Rcd Q :=
  (gather s.subscribedQueryKeys s.watchedQueryKeysByContextId).2

/-- The `toUnsubscribe` as computed by `updateSubscriptions` on state `s`
(manager.ts 203-208). -/
def toUnsubscribeOf (s : ManagerState Q) : Rcd Q :=
  s.subscribedQueryKeys.foldl
    (fun acc kq =>
      if Rcd.hasKey (keysBeingWatchedOf s) kq.1 then acc
      else Rcd.set acc kq.1 kq.2)
    []

/-- The `updateSubscriptions` (manager.ts 180-228). Returns the new state and
the batched callback invocations in order. -/
def updateSubscriptions (s : ManagerState Q) :
    ManagerState Q × List (Event Q) :=
  -- `this.pendingSubscriptionUpdate = false` happens first (line 182)
  let pending := false
  let toSubscribe := toSubscribeOf s
  let toUnsubscribe := toUnsubscribeOf s
  -- lines 213-216: delete each key from `subscribedQueryKeys` while
  -- collecting the queries
  let unsubPair := toUnsubscribe.foldl
    (fun (p : Rcd Q × List Q) kq => (Rcd.delete p.1 kq.1, p.2 ++ [kq.2]))
    (s.subscribedQueryKeys, [])
  -- lines 217-219: `if (toUnsubscribeQueries.length) unsubscribe(...)`
  let unsubEvents : List (Event Q) :=
    if unsubPair.2.length = 0 then []
    else [.unsubscribeCall unsubPair.2 unsubPair.1 pending]
  -- lines 220-224: add each key to `subscribedQueryKeys` while collecting
  -- the queries
  let subPair := toSubscribe.foldl
    (fun (p : Rcd Q × List Q) kq => (Rcd.set p.1 kq.1 kq.2, p.2 ++ [kq.2]))
    (unsubPair.1, [])
  -- lines 225-227: `if (toSubscribeQueries.length) subscribe(...)`
  let subEvents : List (Event Q) :=
    if subPair.2.length = 0 then []
    else [.subscribeCall subPair.2 subPair.1 pending]
  ({ s with
      subscribedQueryKeys := subPair.1
      pendingSubscriptionUpdate := pending },
   unsubEvents ++ subEvents)

/-- Failure modes of `get` in the model: the injected getter threw, or the
`getContext` misuse check threw. -/
inductive GetErr (E : Type u) : Type u where
  | getterError (e : E)
  | contextError (msg : String)
deriving Repr

/-- Full outcome of a `get` call: whether the configured getter was
invoked, the manager state after the call (unchanged when the call threw),
how many times the deferral function was invoked, whether
`context.registerReset` was called, and the returned value or error. -/
structure GetResult (T : Type u) (Q : Type u) (E : Type u) : Type u where
  getterInvoked : Bool
  state : ManagerState Q
  defers : Nat
  resetRegistered : Bool
  outcome : Except (GetErr E) T

/-- The `get` (manager.ts 106-118). `cfgGet` is the injected getter (modelled
as possibly throwing); `toString` the manager's `queryToString`; `ambient`
the value of `getCurrentContext()`; `context` the optional explicit
argument. -/
def get {T E : Type u} (cfgGet : Q → Except E T) (toString : Q → String)
    (noGetOutsideContext : Bool) (ambient : Option BaseSubscriptionContext)
    (s : ManagerState Q) (query : Q)
    (context : Option BaseSubscriptionContext) : GetResult T Q E :=
  -- `const ret = this.config.get(query)` — invoked unconditionally, first
  match cfgGet query with
  | .error e =>
    { getterInvoked := true, state := s, defers := 0,
      resetRegistered := false, outcome := .error (.getterError e) }
  | .ok ret =>
    match getContext noGetOutsideContext ambient context with
    | .error msg =>
      { getterInvoked := true, state := s, defers := 0,
        resetRegistered := false, outcome := .error (.contextError msg) }
    | .ok none =>
      { getterInvoked := true, state := s, defers := 0,
        resetRegistered := false, outcome := .ok ret }
    | .ok (some currentContext) =>
      let reg := registerQuery toString s currentContext query
      let sched := scheduleSubscriptionUpdate reg.1
      { getterInvoked := true, state := sched.1, defers := sched.2,
        resetRegistered := reg.2, outcome := .ok ret }

/-- The three overloads of `updateQueries` (manager.ts 250-252): no
argument, a query list, or a test function. -/
inductive UpdateParam (Q : Type u) : Type u where
  | all
  | list (queries : List Q)
  | pred (test : Q → Bool)

/-- The `testFn` selection of manager.ts 254-263. The list form is
`q => !!param.find(p => queryToString(p) === queryToString(q))`: the JS
`find` returns the first supplied query with a matching key (or
undefined), and the `!!` coercion takes the JS truthiness of that query
value itself, so a falsy matching supplied query makes the test false.
`truthyQ` models JS truthiness on the query type. -/
def updateQueriesTestFn (truthyQ : Q → Bool) (toString : Q → String) :
    UpdateParam Q → Q → Bool
  | .all => fun _ => true
  | .list queries => fun q =>
      match queries.find? (fun p => toString p = toString q) with
      | none => false
      | some p => truthyQ p
  | .pred test => test

/-- Error message of manager.ts line 275 (with the id appended). -/
def missingContextMsg (id : String) : String :=
  "Unable to locate watched context " ++ id

/-- The doUpdate flag of manager.ts 269,
`!!Object.keys(queryKeys).find(key => testFn(queryKeys[key]))`: the JS
`find` returns the first key whose query matches (or undefined), and the
double-negation coercion takes the JS truthiness of that key string, so
the flag is false both when no key matches and when the first matching
key is the empty string (a falsy key, which the manager.ts 196 comment
notes is valid). -/
def doUpdateOf (testFn : Q → Bool) (queryKeys : Rcd Q) : Bool :=
  match queryKeys.find? (fun kq => testFn kq.2) with
  | none => false
  | some kq => decide (¬ kq.1 = "")

/-- The `forEach` body of manager.ts 267-281, processed entry by entry.
Returns the contexts whose `forceUpdate` was invoked, in order, and the
error thrown when a matching context cannot be located (entries after the
throw are not processed, matching JS exception propagation). -/
def updateQueriesGo (testFn : Q → Bool)
    (contexts : Rcd BaseSubscriptionContext) :
    List (String × Rcd Q) → List BaseSubscriptionContext × Option String
  | [] => ([], none)
  | (id, queryKeys) :: rest =>
    if doUpdateOf testFn queryKeys then
      match Rcd.get? contexts id with
      | none => ([], some (missingContextMsg id))
      | some context =>
        let r := updateQueriesGo testFn contexts rest
        (context :: r.1, r.2)
    else updateQueriesGo testFn contexts rest

/-- The `updateQueries` method (manager.ts 253-282). `truthyQ` models JS
truthiness on the query type (needed by the list form of the test
function). -/
def updateQueries (truthyQ : Q → Bool) (toString : Q → String)
    (s : ManagerState Q) (param : UpdateParam Q) :
    List BaseSubscriptionContext × Option String :=
  updateQueriesGo (updateQueriesTestFn truthyQ toString param)
    s.watchedContexts s.watchedQueryKeysByContextId

/-! ## Record lemmas -/

namespace Rcd

@[simp] theorem hasKey_nil (k : String) : hasKey ([] : Rcd Q) k = false := rfl

@[simp] theorem hasKey_cons (p : String × Q) (r : Rcd Q) (k : String) :
    hasKey (p :: r) k = (decide (p.1 = k) || hasKey r k) := by
  simp [hasKey, List.any_cons]

theorem hasKey_iff_mem_keys (r : Rcd Q) (k : String) :
    hasKey r k = true ↔ k ∈ keys r := by
  simp [hasKey, keys, List.any_eq_true, List.mem_map]

@[simp] theorem hasKey_set (r : Rcd Q) (k : String) (v : Q) (k' : String) :
    hasKey (set r k v) k' = (decide (k = k') || hasKey r k') := by
  induction r with
  | nil => simp [set]
  | cons p rest ih =>
    by_cases h : p.1 = k
    · subst h
      simp [set]
    · simp only [set, if_neg h, hasKey_cons, ih]
      by_cases h' : k = k' <;> by_cases h'' : p.1 = k' <;> simp_all

@[simp] theorem hasKey_delete (r : Rcd Q) (k : String) (k' : String) :
    hasKey (delete r k) k' = (hasKey r k' && !decide (k' = k)) := by
  induction r with
  | nil => simp [delete]
  | cons p rest ih =>
    by_cases h : p.1 = k
    · have hd : delete (p :: rest) k = delete rest k := by
        simp [delete, List.filter_cons, h]
      rw [hd, ih, hasKey_cons]
      by_cases h' : k' = k
      · simp [h']
      · have hp : ¬ p.1 = k' := fun hk => h' (h ▸ hk).symm
        simp [h', hp]
    · have hd : delete (p :: rest) k = p :: delete rest k := by
        simp [delete, List.filter_cons, h]
      rw [hd, hasKey_cons, ih, hasKey_cons]
      by_cases h' : k' = k
      · have hp : ¬ p.1 = k' := fun hpk => h (by rw [hpk, h'])
        simp [h', hp, h]
      · simp only [h', decide_False, Bool.not_false, Bool.and_true]

theorem keys_set (r : Rcd Q) (k : String) (v : Q) :
    keys (set r k v) = if hasKey r k then keys r else keys r ++ [k] := by
  induction r with
  | nil => simp [set, keys]
  | cons p rest ih =>
    by_cases h : p.1 = k
    · subst h
      simp [set, keys]
    · simp only [set, if_neg h, keys, List.map_cons] at *
      simp only [hasKey_cons]
      by_cases h2 : hasKey rest k
      · simp_all
      · simp_all

theorem nodup_keys_set (r : Rcd Q) (k : String) (v : Q)
    (h : (keys r).Nodup) : (keys (set r k v)).Nodup := by
  rw [keys_set]
  by_cases hk : hasKey r k = true
  · rw [if_pos hk]; exact h
  · rw [if_neg hk]
    rw [List.nodup_append]
    refine ⟨h, List.nodup_singleton k, ?_⟩
    intro a ha hb
    simp only [List.mem_singleton] at hb
    subst hb
    exact hk ((hasKey_iff_mem_keys r a).2 ha)

theorem get?_set_self (r : Rcd Q) (k : String) (v : Q) :
    get? (set r k v) k = some v := by
  induction r with
  | nil => simp [set, get?]
  | cons p rest ih =>
    by_cases h : p.1 = k
    · subst h; simp [set, get?]
    · simp [set, if_neg h, get?, h, ih]

theorem get?_set_other (r : Rcd Q) (k : String) (v : Q) (k' : String)
    (h : ¬ k = k') : get? (set r k v) k' = get? r k' := by
  induction r with
  | nil => simp [set, get?, h]
  | cons p rest ih =>
    by_cases hp : p.1 = k
    · subst hp; simp [set, get?, h]
    · simp only [set, if_neg hp, get?]
      by_cases hp' : p.1 = k' <;> simp [hp', ih]

theorem get?_delete_self (r : Rcd Q) (k : String) :
    get? (delete r k) k = none := by
  induction r with
  | nil => rfl
  | cons p rest ih =>
    by_cases h : p.1 = k
    · have hd : delete (p :: rest) k = delete rest k := by
        simp [delete, List.filter_cons, h]
      rw [hd]; exact ih
    · have hd : delete (p :: rest) k = p :: delete rest k := by
        simp [delete, List.filter_cons, h]
      rw [hd]
      simp [get?, h, ih]

theorem get?_isSome_of_hasKey (r : Rcd Q) (k : String)
    (h : hasKey r k = true) : (get? r k).isSome := by
  induction r with
  | nil => simp at h
  | cons p rest ih =>
    simp only [hasKey_cons, Bool.or_eq_true, decide_eq_true_eq] at h
    by_cases hp : p.1 = k
    · simp [get?, hp]
    · simp only [get?, if_neg hp]
      exact ih (h.resolve_left hp)

theorem get?_delete_other (r : Rcd Q) (k k' : String) (h : ¬ k' = k) :
    get? (delete r k) k' = get? r k' := by
  induction r with
  | nil => rfl
  | cons p rest ih =>
    by_cases hp : p.1 = k
    · have hd : delete (p :: rest) k = delete rest k := by
        simp [delete, List.filter_cons, hp]
      rw [hd, ih]
      have hne : ¬ p.1 = k' := by
        rw [hp]
        intro he
        exact h he.symm
      simp [get?, hne]
    · have hd : delete (p :: rest) k = p :: delete rest k := by
        simp [delete, List.filter_cons, hp]
      rw [hd]
      by_cases hp' : p.1 = k' <;> simp [get?, hp', ih]

theorem mem_of_get?_eq_some (r : Rcd Q) (k : String) (v : Q)
    (h : get? r k = some v) : (k, v) ∈ r := by
  induction r with
  | nil => cases h
  | cons p rest ih =>
    by_cases hp : p.1 = k
    · simp only [get?, if_pos hp] at h
      have hv : p.2 = v := Option.some.inj h
      have hkv : (k, v) = p := by
        obtain ⟨a, b⟩ := p
        simp only at hp hv
        rw [hp, hv]
      rw [hkv]
      exact List.mem_cons_self _ _
    · simp only [get?, if_neg hp] at h
      exact List.mem_cons_of_mem _ (ih h)

theorem get?_eq_none_of_hasKey_false (r : Rcd Q) (k : String)
    (h : hasKey r k = false) : get? r k = none := by
  induction r with
  | nil => rfl
  | cons p rest ih =>
    simp only [hasKey_cons, Bool.or_eq_false_iff, decide_eq_false_iff_not]
      at h
    simp [get?, h.1, ih h.2]

theorem set_ne_nil (r : Rcd Q) (k : String) (v : Q) :
    ¬ set r k v = [] := by
  cases r with
  | nil => simp [set]
  | cons p rest => by_cases h : p.1 = k <;> simp [set, h]

theorem hasKey_of_mem (r : Rcd Q) (p : String × Q) (h : p ∈ r) :
    hasKey r p.1 = true := by
  induction r with
  | nil => simp at h
  | cons q rest ih =>
    rcases List.mem_cons.1 h with h | h
    · subst h; simp
    · simp [ih h]

end Rcd

/-! ## Characterizations of the reconciliation folds -/

/-- Splitting the fused "mutate the record and collect the query" folds of
manager.ts 213-216 and 220-224 into their two components. -/
theorem foldl_pair_split (f : Rcd Q → String × Q → Rcd Q)
    (ps : List (String × Q)) (a₀ : Rcd Q) (qs₀ : List Q) :
    ps.foldl (fun p kq => (f p.1 kq, p.2 ++ [kq.2])) (a₀, qs₀)
      = (ps.foldl f a₀, qs₀ ++ ps.map Prod.snd) := by
  induction ps generalizing a₀ qs₀ with
  | nil => simp
  | cons p rest ih => simp [ih]

theorem hasKey_foldl_delete (ps : List (String × Q)) (a₀ : Rcd Q)
    (k : String) :
    Rcd.hasKey (ps.foldl (fun a kq => Rcd.delete a kq.1) a₀) k
      = (Rcd.hasKey a₀ k && !ps.any (fun kq => decide (kq.1 = k))) := by
  induction ps generalizing a₀ with
  | nil => simp
  | cons p rest ih =>
    rw [List.foldl_cons, ih, Rcd.hasKey_delete, List.any_cons]
    by_cases hp : p.1 = k
    · simp [hp]
    · have hp' : ¬ k = p.1 := fun h => hp h.symm
      cases h₀ : Rcd.hasKey a₀ k <;> simp [hp, hp']

theorem hasKey_foldl_set (ps : List (String × Q)) (a₀ : Rcd Q)
    (k : String) :
    Rcd.hasKey (ps.foldl (fun a kq => Rcd.set a kq.1 kq.2) a₀) k
      = (Rcd.hasKey a₀ k || ps.any (fun kq => decide (kq.1 = k))) := by
  induction ps generalizing a₀ with
  | nil => simp
  | cons p rest ih =>
    rw [List.foldl_cons, ih, Rcd.hasKey_set, List.any_cons]
    by_cases hp : p.1 = k <;> simp [hp, Bool.or_comm]

theorem gatherFold_fst_hasKey (sub : Rcd Q) (ps : List (String × Q))
    (acc : Rcd Q × Rcd Q) (k : String) :
    Rcd.hasKey ((ps.foldl (gatherStep sub) acc).1) k
      = (Rcd.hasKey acc.1 k || ps.any (fun kq => decide (kq.1 = k))) := by
  induction ps generalizing acc with
  | nil => simp
  | cons p rest ih =>
    rw [List.foldl_cons, ih, List.any_cons]
    show (Rcd.hasKey (Rcd.set acc.1 p.1 p.2) k || _) = _
    rw [Rcd.hasKey_set]
    by_cases hp : p.1 = k <;> simp [hp, Bool.or_comm, Bool.or_left_comm]

theorem gatherFold_snd_hasKey (sub : Rcd Q) (ps : List (String × Q))
    (acc : Rcd Q × Rcd Q) (k : String) :
    Rcd.hasKey ((ps.foldl (gatherStep sub) acc).2) k
      = (Rcd.hasKey acc.2 k
          || (ps.any (fun kq => decide (kq.1 = k)) && !Rcd.hasKey sub k)) := by
  induction ps generalizing acc with
  | nil => simp
  | cons p rest ih =>
    rw [List.foldl_cons, ih, List.any_cons]
    by_cases hp : p.1 = k
    · cases hs : Rcd.hasKey sub k
      · have : gatherStep sub acc p
            = (Rcd.set acc.1 p.1 p.2, Rcd.set acc.2 p.1 p.2) := by
          simp [gatherStep, hp, hs]
        rw [this]
        simp [hp, hs]
      · have : gatherStep sub acc p = (Rcd.set acc.1 p.1 p.2, acc.2) := by
          simp [gatherStep, hp, hs]
        rw [this]
        simp [hp, hs]
    · cases hs : Rcd.hasKey sub p.1
      · have : gatherStep sub acc p
            = (Rcd.set acc.1 p.1 p.2, Rcd.set acc.2 p.1 p.2) := by
          simp [gatherStep, hs]
        rw [this]
        simp [hp]
      · have : gatherStep sub acc p = (Rcd.set acc.1 p.1 p.2, acc.2) := by
          simp [gatherStep, hs]
        rw [this]
        simp [hp]

/-- The nested `forEach` of manager.ts 191-201 is the fold over the
concatenation of all per-context watched maps. -/
theorem gather_eq_foldl_flatten (sub : Rcd Q) (watched : Rcd (Rcd Q)) :
    gather sub watched
      = ((watched.map Prod.snd).flatten).foldl (gatherStep sub) ([], []) := by
  rw [List.foldl_flatten, List.foldl_map]
  rfl

theorem any_map_comp {α β : Type u} (f : α → β) (l : List α) (p : β → Bool) :
    (l.map f).any p = l.any (fun x => p (f x)) := by
  induction l with
  | nil => rfl
  | cons x rest ih => simp [ih]

theorem any_key_flatten (L : List (List (String × Q))) (k : String) :
    (L.flatten).any (fun kq => decide (kq.1 = k))
      = L.any (fun l => Rcd.hasKey l k) := by
  induction L with
  | nil => rfl
  | cons l rest ih => simp [List.any_append, ih, Rcd.hasKey]

/-- The `keysBeingWatched` holds a key iff some live context watches it: the
union of watched keys across all contexts (manager.ts 191-201). -/
theorem keysBeingWatchedOf_hasKey (s : ManagerState Q) (k : String) :
    Rcd.hasKey (keysBeingWatchedOf s) k
      = s.watchedQueryKeysByContextId.any (fun e => Rcd.hasKey e.2 k) := by
  rw [keysBeingWatchedOf, gather_eq_foldl_flatten, gatherFold_fst_hasKey,
    any_key_flatten, any_map_comp]
  simp

theorem toSubscribeOf_hasKey (s : ManagerState Q) (k : String) :
    Rcd.hasKey (toSubscribeOf s) k
      = (Rcd.hasKey (keysBeingWatchedOf s) k
          && !Rcd.hasKey s.subscribedQueryKeys k) := by
  rw [toSubscribeOf, gather_eq_foldl_flatten, gatherFold_snd_hasKey,
    any_key_flatten, keysBeingWatchedOf, gather_eq_foldl_flatten,
    gatherFold_fst_hasKey, any_key_flatten]
  simp

theorem condSet_hasKey (cond : String → Bool) (ps : List (String × Q))
    (acc : Rcd Q) (k : String) :
    Rcd.hasKey
        (ps.foldl
          (fun a kq => if cond kq.1 then a else Rcd.set a kq.1 kq.2) acc) k
      = (Rcd.hasKey acc k
          || (ps.any (fun kq => decide (kq.1 = k)) && !cond k)) := by
  induction ps generalizing acc with
  | nil => simp
  | cons p rest ih =>
    rw [List.foldl_cons, ih, List.any_cons]
    by_cases hp : p.1 = k
    · rw [hp]
      cases hc : cond k
      · simp [hc]
      · simp [hc]
    · cases hc : cond p.1 <;> simp [hc, hp]

theorem toUnsubscribeOf_hasKey (s : ManagerState Q) (k : String) :
    Rcd.hasKey (toUnsubscribeOf s) k
      = (Rcd.hasKey s.subscribedQueryKeys k
          && !Rcd.hasKey (keysBeingWatchedOf s) k) := by
  rw [toUnsubscribeOf, condSet_hasKey]
  simp [Rcd.hasKey]

/-- Keys produced by a fold of `Rcd.set` starting from the empty record
have no duplicates: both `toSubscribe` and `toUnsubscribe` carry at most
one query per key. -/
theorem nodup_keys_foldl_set (f : Rcd Q → String × Q → Rcd Q)
    (hf : ∀ a kq, f a kq = a ∨ f a kq = Rcd.set a kq.1 kq.2)
    (ps : List (String × Q)) (acc : Rcd Q)
    (hacc : (Rcd.keys acc).Nodup) :
    (Rcd.keys (ps.foldl f acc)).Nodup := by
  induction ps generalizing acc with
  | nil => exact hacc
  | cons p rest ih =>
    rw [List.foldl_cons]
    refine ih (f acc p) ?_
    rcases hf acc p with h | h
    · rw [h]; exact hacc
    · rw [h]; exact Rcd.nodup_keys_set _ _ _ hacc

/-! ## Behaviour of `updateSubscriptions` -/

/-- The record of subscribed keys after reconciliation: the keys of
`toUnsubscribe` deleted, then the entries of `toSubscribe` written. -/
theorem updateSubscriptions_subscribed (s : ManagerState Q) :
    (updateSubscriptions s).1.subscribedQueryKeys
      = (toSubscribeOf s).foldl (fun a kq => Rcd.set a kq.1 kq.2)
          ((toUnsubscribeOf s).foldl (fun a kq => Rcd.delete a kq.1)
            s.subscribedQueryKeys) := by
  rw [updateSubscriptions]
  rw [foldl_pair_split (fun a kq => Rcd.delete a kq.1),
    foldl_pair_split (fun a kq => Rcd.set a kq.1 kq.2)]

theorem updateSubscriptions_pending (s : ManagerState Q) :
    (updateSubscriptions s).1.pendingSubscriptionUpdate = false := by
  rw [updateSubscriptions]

theorem updateSubscriptions_watched (s : ManagerState Q) :
    (updateSubscriptions s).1.watchedQueryKeysByContextId
      = s.watchedQueryKeysByContextId
    ∧ (updateSubscriptions s).1.watchedContexts = s.watchedContexts := by
  rw [updateSubscriptions]
  exact ⟨rfl, rfl⟩

/-- The callback invocations of one reconciliation run, explicitly. -/
theorem updateSubscriptions_events (s : ManagerState Q) :
    (updateSubscriptions s).2
      = (if (Rcd.values (toUnsubscribeOf s)).length = 0 then []
         else [Event.unsubscribeCall (Rcd.values (toUnsubscribeOf s))
            ((toUnsubscribeOf s).foldl (fun a kq => Rcd.delete a kq.1)
              s.subscribedQueryKeys) false])
      ++ (if (Rcd.values (toSubscribeOf s)).length = 0 then []
          else [Event.subscribeCall (Rcd.values (toSubscribeOf s))
            ((updateSubscriptions s).1.subscribedQueryKeys) false]) := by
  rw [updateSubscriptions_subscribed]
  rw [updateSubscriptions]
  rw [foldl_pair_split (fun a kq => Rcd.delete a kq.1),
    foldl_pair_split (fun a kq => Rcd.set a kq.1 kq.2)]
  rfl

/-- After reconciliation the subscribed key set coincides with the watched
key set. -/
theorem updateSubscriptions_subscribed_hasKey (s : ManagerState Q)
    (k : String) :
    Rcd.hasKey ((updateSubscriptions s).1.subscribedQueryKeys) k
      = Rcd.hasKey (keysBeingWatchedOf s) k := by
  rw [updateSubscriptions_subscribed, hasKey_foldl_set, hasKey_foldl_delete]
  have h1 : (toSubscribeOf s).any (fun kq => decide (kq.1 = k))
      = Rcd.hasKey (toSubscribeOf s) k := rfl
  have h2 : (toUnsubscribeOf s).any (fun kq => decide (kq.1 = k))
      = Rcd.hasKey (toUnsubscribeOf s) k := rfl
  rw [h1, h2, toSubscribeOf_hasKey, toUnsubscribeOf_hasKey]
  cases hw : Rcd.hasKey (keysBeingWatchedOf s) k <;>
    cases hs : Rcd.hasKey s.subscribedQueryKeys k <;> simp

/-- The `toSubscribe` component of the gather fold is itself a fold of
conditional writes. -/
theorem gatherFold_snd_eq (sub : Rcd Q) (ps : List (String × Q))
    (acc : Rcd Q × Rcd Q) :
    (ps.foldl (gatherStep sub) acc).2
      = ps.foldl
          (fun a kq =>
            if Rcd.hasKey sub kq.1 then a else Rcd.set a kq.1 kq.2)
          acc.2 := by
  induction ps generalizing acc with
  | nil => rfl
  | cons p rest ih =>
    rw [List.foldl_cons, ih, List.foldl_cons]
    rfl

theorem nodup_keys_toSubscribeOf (s : ManagerState Q) :
    (Rcd.keys (toSubscribeOf s)).Nodup := by
  rw [toSubscribeOf, gather_eq_foldl_flatten, gatherFold_snd_eq]
  refine nodup_keys_foldl_set _ (fun a kq => ?_) _ _ (by simp [Rcd.keys])
  by_cases h : Rcd.hasKey s.subscribedQueryKeys kq.1 = true
  · left; simp [h]
  · right; simp [h]

theorem nodup_keys_toUnsubscribeOf (s : ManagerState Q) :
    (Rcd.keys (toUnsubscribeOf s)).Nodup := by
  rw [toUnsubscribeOf]
  refine nodup_keys_foldl_set _ (fun a kq => ?_) _ _ (by simp [Rcd.keys])
  by_cases h : Rcd.hasKey (keysBeingWatchedOf s) kq.1 = true
  · left; simp [h]
  · right; simp [h]

theorem values_length_zero_iff (r : Rcd Q) :
    (Rcd.values r).length = 0 ↔ r = [] := by
  rw [Rcd.values, List.length_map, List.length_eq_zero]

/-! ## Claim C1 -/

/-- Claim **C1**: for every manager state, when the deferred reconciliation
(`updateSubscriptions`) runs, it computes `keysBeingWatched` as the union of
watched keys across all contexts in `watchedQueryKeysByContextId`, passes to
the subscribe callback exactly the queries whose keys are in
`keysBeingWatched` but not in `subscribedQueryKeys`, passes to the
unsubscribe callback exactly the queries whose keys are in
`subscribedQueryKeys` but not in `keysBeingWatched`, and afterwards the key
set of `subscribedQueryKeys` equals `keysBeingWatched`. -/
theorem claim_C1 (s : ManagerState Q) (k : String) :
    (Rcd.hasKey (keysBeingWatchedOf s) k
      = s.watchedQueryKeysByContextId.any (fun e => Rcd.hasKey e.2 k))
    ∧ (Rcd.hasKey (toSubscribeOf s) k
      = (Rcd.hasKey (keysBeingWatchedOf s) k
          && !Rcd.hasKey s.subscribedQueryKeys k))
    ∧ (Rcd.hasKey (toUnsubscribeOf s) k
      = (Rcd.hasKey s.subscribedQueryKeys k
          && !Rcd.hasKey (keysBeingWatchedOf s) k))
    ∧ (∀ e ∈ (updateSubscriptions s).2,
        Event.queries e
          = if Event.isSubscribe e then Rcd.values (toSubscribeOf s)
            else Rcd.values (toUnsubscribeOf s))
    ∧ Rcd.hasKey ((updateSubscriptions s).1.subscribedQueryKeys) k
      = Rcd.hasKey (keysBeingWatchedOf s) k := by
  refine ⟨keysBeingWatchedOf_hasKey s k, toSubscribeOf_hasKey s k,
    toUnsubscribeOf_hasKey s k, ?_, updateSubscriptions_subscribed_hasKey s k⟩
  intro e he
  rw [updateSubscriptions_events] at he
  rcases List.mem_append.1 he with h | h
  · by_cases hz : (Rcd.values (toUnsubscribeOf s)).length = 0
    · rw [if_pos hz] at h
      cases h
    · rw [if_neg hz] at h
      rcases List.mem_singleton.1 h with rfl
      simp [Event.isSubscribe, Event.queries]
  · by_cases hz : (Rcd.values (toSubscribeOf s)).length = 0
    · rw [if_pos hz] at h
      cases h
    · rw [if_neg hz] at h
      rcases List.mem_singleton.1 h with rfl
      simp [Event.isSubscribe, Event.queries]

/-- Witness for C1: at the state where context "1" watches key "a" (query
5) and key "b" (query 7) is subscribed, the reconciliation's unsubscribe
call receives exactly the queries of `toUnsubscribe`. -/
theorem claim_C1_witness :
    Event.queries (Event.unsubscribeCall ([7] : List Nat) ([] : Rcd Nat) false)
      = (if Event.isSubscribe
            (Event.unsubscribeCall ([7] : List Nat) ([] : Rcd Nat) false)
         then Rcd.values (toSubscribeOf
            { watchedQueryKeysByContextId := [("1", [("a", 5)])]
              watchedContexts := [("1", { id := "1" })]
              subscribedQueryKeys := [("b", 7)]
              pendingSubscriptionUpdate := true })
         else Rcd.values (toUnsubscribeOf
            { watchedQueryKeysByContextId := [("1", [("a", 5)])]
              watchedContexts := [("1", { id := "1" })]
              subscribedQueryKeys := [("b", 7)]
              pendingSubscriptionUpdate := true })) :=
  (claim_C1
    { watchedQueryKeysByContextId := [("1", [("a", 5)])]
      watchedContexts := [("1", { id := "1" })]
      subscribedQueryKeys := [("b", 7)]
      pendingSubscriptionUpdate := true } ("a")).2.2.2.1 _ (by decide)

/-! ## Claim C2 -/

/-- Claim **C2**: in every reconciliation run, the batched unsubscribe call (whose
`subscribedQueryKeys` snapshot has the unsubscribed entries already removed)
comes before the batched subscribe call (whose snapshot has the subscribed
entries already added); each callback is invoked at most once per run and
only with a non-empty query list; and each receives the stored Query values
deduplicated by key, one Query per key. -/
theorem claim_C2 (s : ManagerState Q) (k : String) :
    (List.countP (fun e => Event.isSubscribe e) (updateSubscriptions s).2 ≤ 1)
    ∧ (List.countP (fun e => !Event.isSubscribe e) (updateSubscriptions s).2
        ≤ 1)
    ∧ List.Pairwise
        (fun a b => Event.isSubscribe a = false ∧ Event.isSubscribe b = true)
        (updateSubscriptions s).2
    ∧ (∀ e ∈ (updateSubscriptions s).2, ¬ Event.queries e = [])
    ∧ (¬ toUnsubscribeOf s = [] →
        ∃ e ∈ (updateSubscriptions s).2, Event.isSubscribe e = false)
    ∧ (¬ toSubscribeOf s = [] →
        ∃ e ∈ (updateSubscriptions s).2, Event.isSubscribe e = true)
    ∧ (∀ e ∈ (updateSubscriptions s).2, Event.isSubscribe e = false →
        Event.queries e = Rcd.values (toUnsubscribeOf s)
        ∧ (Rcd.keys (toUnsubscribeOf s)).Nodup
        ∧ Rcd.hasKey (Event.subscribedAtCall e) k
            = (Rcd.hasKey s.subscribedQueryKeys k
                && !Rcd.hasKey (toUnsubscribeOf s) k))
    ∧ (∀ e ∈ (updateSubscriptions s).2, Event.isSubscribe e = true →
        Event.queries e = Rcd.values (toSubscribeOf s)
        ∧ (Rcd.keys (toSubscribeOf s)).Nodup
        ∧ Event.subscribedAtCall e
            = (updateSubscriptions s).1.subscribedQueryKeys) := by
  have hevents := updateSubscriptions_events s
  have hdel : ∀ e ∈ (updateSubscriptions s).2, Event.isSubscribe e = false →
      Rcd.hasKey (Event.subscribedAtCall e) k
        = (Rcd.hasKey s.subscribedQueryKeys k
            && !Rcd.hasKey (toUnsubscribeOf s) k) := by
    intro e he hsub
    rw [hevents] at he
    rcases List.mem_append.1 he with h | h
    · by_cases hz : (Rcd.values (toUnsubscribeOf s)).length = 0
      · rw [if_pos hz] at h; cases h
      · rw [if_neg hz] at h
        rcases List.mem_singleton.1 h with rfl
        show Rcd.hasKey
            ((toUnsubscribeOf s).foldl (fun a kq => Rcd.delete a kq.1)
              s.subscribedQueryKeys) k = _
        rw [hasKey_foldl_delete]
        rfl
    · by_cases hz : (Rcd.values (toSubscribeOf s)).length = 0
      · rw [if_pos hz] at h; cases h
      · rw [if_neg hz] at h
        rcases List.mem_singleton.1 h with rfl
        cases hsub
  by_cases hU : toUnsubscribeOf s = [] <;> by_cases hS : toSubscribeOf s = []
  · have hevs : (updateSubscriptions s).2 = [] := by
      rw [hevents, hU, hS]
      simp [Rcd.values]
    rw [hevs] at hdel ⊢
    simp [hU, hS]
  · have hz1 : (Rcd.values (toUnsubscribeOf s)).length = 0 :=
      (values_length_zero_iff _).2 hU
    have hz2 : ¬ (Rcd.values (toSubscribeOf s)).length = 0 :=
      fun h => hS ((values_length_zero_iff _).1 h)
    have hevs : (updateSubscriptions s).2
        = [Event.subscribeCall (Rcd.values (toSubscribeOf s))
            ((updateSubscriptions s).1.subscribedQueryKeys) false] := by
      rw [hevents, if_pos hz1, if_neg hz2]
      rfl
    rw [hevs] at hdel ⊢
    refine ⟨by simp [List.countP_cons, Event.isSubscribe],
      by simp [List.countP_cons, Event.isSubscribe], by simp, ?_,
      fun h => absurd hU (by simp [h]), ?_, ?_, ?_⟩
    · intro e he
      rcases List.mem_singleton.1 he with rfl
      simp only [Event.queries]
      intro hq
      exact hz2 (by rw [hq]; rfl)
    · intro _
      exact ⟨_, List.mem_singleton_self _, rfl⟩
    · intro e he hsub
      rcases List.mem_singleton.1 he with rfl
      cases hsub
    · intro e he hsub
      rcases List.mem_singleton.1 he with rfl
      exact ⟨rfl, nodup_keys_toSubscribeOf s, rfl⟩
  · have hz1 : ¬ (Rcd.values (toUnsubscribeOf s)).length = 0 :=
      fun h => hU ((values_length_zero_iff _).1 h)
    have hz2 : (Rcd.values (toSubscribeOf s)).length = 0 :=
      (values_length_zero_iff _).2 hS
    have hevs : (updateSubscriptions s).2
        = [Event.unsubscribeCall (Rcd.values (toUnsubscribeOf s))
            ((toUnsubscribeOf s).foldl (fun a kq => Rcd.delete a kq.1)
              s.subscribedQueryKeys) false] := by
      rw [hevents, if_neg hz1, if_pos hz2]
      rfl
    rw [hevs] at hdel ⊢
    refine ⟨by simp [List.countP_cons, Event.isSubscribe],
      by simp [List.countP_cons, Event.isSubscribe], by simp, ?_, ?_,
      fun h => absurd hS (by simp [h]), ?_, ?_⟩
    · intro e he
      rcases List.mem_singleton.1 he with rfl
      simp only [Event.queries]
      intro hq
      exact hz1 (by rw [hq]; rfl)
    · intro _
      exact ⟨_, List.mem_singleton_self _, rfl⟩
    · intro e he hsub
      rcases List.mem_singleton.1 he with rfl
      exact ⟨rfl, nodup_keys_toUnsubscribeOf s,
        hdel _ (List.mem_singleton_self _) rfl⟩
    · intro e he hsub
      rcases List.mem_singleton.1 he with rfl
      cases hsub
  · have hz1 : ¬ (Rcd.values (toUnsubscribeOf s)).length = 0 :=
      fun h => hU ((values_length_zero_iff _).1 h)
    have hz2 : ¬ (Rcd.values (toSubscribeOf s)).length = 0 :=
      fun h => hS ((values_length_zero_iff _).1 h)
    have hevs : (updateSubscriptions s).2
        = [Event.unsubscribeCall (Rcd.values (toUnsubscribeOf s))
            ((toUnsubscribeOf s).foldl (fun a kq => Rcd.delete a kq.1)
              s.subscribedQueryKeys) false,
           Event.subscribeCall (Rcd.values (toSubscribeOf s))
            ((updateSubscriptions s).1.subscribedQueryKeys) false] := by
      rw [hevents, if_neg hz1, if_neg hz2]
      rfl
    rw [hevs] at hdel ⊢
    refine ⟨by simp [List.countP_cons, Event.isSubscribe],
      by simp [List.countP_cons, Event.isSubscribe],
      by simp [List.pairwise_cons, Event.isSubscribe], ?_, ?_, ?_, ?_, ?_⟩
    · intro e he
      rcases List.mem_cons.1 he with rfl | he
      · simp only [Event.queries]
        intro hq
        exact hz1 (by rw [hq]; rfl)
      · rcases List.mem_singleton.1 he with rfl
        simp only [Event.queries]
        intro hq
        exact hz2 (by rw [hq]; rfl)
    · intro _
      exact ⟨_, List.mem_cons_self _ _, rfl⟩
    · intro _
      exact ⟨_, List.mem_cons.2 (Or.inr (List.mem_singleton_self _)), rfl⟩
    · intro e he hsub
      rcases List.mem_cons.1 he with rfl | he
      · exact ⟨rfl, nodup_keys_toUnsubscribeOf s,
          hdel _ (List.mem_cons_self _ _) rfl⟩
      · rcases List.mem_singleton.1 he with rfl
        cases hsub
    · intro e he hsub
      rcases List.mem_cons.1 he with rfl | he
      · cases hsub
      · rcases List.mem_singleton.1 he with rfl
        exact ⟨rfl, nodup_keys_toSubscribeOf s, rfl⟩

/-- Witness for C2 at the state of the C1 witness: the unsubscribe call
carries query 7, one query per key, with key "b" already removed from
`subscribedQueryKeys` at call time. -/
theorem claim_C2_witness :
    Event.queries (Event.unsubscribeCall ([7] : List Nat) ([] : Rcd Nat) false)
      = Rcd.values (toUnsubscribeOf
          { watchedQueryKeysByContextId := [("1", [("a", 5)])]
            watchedContexts := [("1", { id := "1" })]
            subscribedQueryKeys := [("b", 7)]
            pendingSubscriptionUpdate := true })
    ∧ (Rcd.keys (toUnsubscribeOf
          ({ watchedQueryKeysByContextId := [("1", [("a", 5)])]
             watchedContexts := [("1", { id := "1" })]
             subscribedQueryKeys := [("b", 7)]
             pendingSubscriptionUpdate := true } : ManagerState Nat))).Nodup
    ∧ Rcd.hasKey
        (Event.subscribedAtCall
          (Event.unsubscribeCall ([7] : List Nat) ([] : Rcd Nat) false)) "b"
      = (Rcd.hasKey
          (ManagerState.subscribedQueryKeys
            { watchedQueryKeysByContextId := [("1", [("a", 5)])]
              watchedContexts := [("1", { id := "1" })]
              subscribedQueryKeys := [("b", 7)]
              pendingSubscriptionUpdate := true }) "b"
          && !Rcd.hasKey (toUnsubscribeOf
            ({ watchedQueryKeysByContextId := [("1", [("a", 5)])]
               watchedContexts := [("1", { id := "1" })]
               subscribedQueryKeys := [("b", 7)]
               pendingSubscriptionUpdate := true } : ManagerState Nat)) "b") :=
  (claim_C2
    { watchedQueryKeysByContextId := [("1", [("a", 5)])]
      watchedContexts := [("1", { id := "1" })]
      subscribedQueryKeys := [("b", 7)]
      pendingSubscriptionUpdate := true } ("b")).2.2.2.2.2.2.1 _ (by decide)
    (by decide)

theorem eq_nil_of_hasKey_false (r : Rcd Q)
    (h : ∀ k, Rcd.hasKey r k = false) : r = [] := by
  cases r with
  | nil => rfl
  | cons p rest => exact absurd (h p.1) (by simp)

/-- The pending flag is cleared before either batched callback runs. -/
theorem updateSubscriptions_pendingAtCall (s : ManagerState Q) :
    ∀ e ∈ (updateSubscriptions s).2, Event.pendingAtCall e = false := by
  intro e he
  rw [updateSubscriptions_events] at he
  rcases List.mem_append.1 he with h | h
  · by_cases hz : (Rcd.values (toUnsubscribeOf s)).length = 0
    · rw [if_pos hz] at h; cases h
    · rw [if_neg hz] at h
      rcases List.mem_singleton.1 h with rfl
      rfl
  · by_cases hz : (Rcd.values (toSubscribeOf s)).length = 0
    · rw [if_pos hz] at h; cases h
    · rw [if_neg hz] at h
      rcases List.mem_singleton.1 h with rfl
      rfl

/-! ## Claim C9 -/

/-- Claim **C9**: reconciliation is idempotent. Running `updateSubscriptions`
twice in a row with no intervening registration or reset makes the second
run invoke neither callback and leave `subscribedQueryKeys` unchanged. -/
theorem claim_C9 (s : ManagerState Q) :
    ((updateSubscriptions (updateSubscriptions s).1).2 = [])
    ∧ ((updateSubscriptions (updateSubscriptions s).1).1.subscribedQueryKeys
        = (updateSubscriptions s).1.subscribedQueryKeys) := by
  set s₁ := (updateSubscriptions s).1 with hs₁
  have hw : s₁.watchedQueryKeysByContextId = s.watchedQueryKeysByContextId :=
    (updateSubscriptions_watched s).1
  have hkbw : ∀ k, Rcd.hasKey (keysBeingWatchedOf s₁) k
      = Rcd.hasKey (keysBeingWatchedOf s) k := by
    intro k
    rw [keysBeingWatchedOf_hasKey, keysBeingWatchedOf_hasKey, hw]
  have hsub : ∀ k, Rcd.hasKey s₁.subscribedQueryKeys k
      = Rcd.hasKey (keysBeingWatchedOf s) k :=
    fun k => updateSubscriptions_subscribed_hasKey s k
  have hU : toUnsubscribeOf s₁ = [] := by
    apply eq_nil_of_hasKey_false
    intro k
    rw [toUnsubscribeOf_hasKey, hkbw, hsub]
    cases Rcd.hasKey (keysBeingWatchedOf s) k <;> rfl
  have hS : toSubscribeOf s₁ = [] := by
    apply eq_nil_of_hasKey_false
    intro k
    rw [toSubscribeOf_hasKey, hkbw, hsub]
    cases Rcd.hasKey (keysBeingWatchedOf s) k <;> rfl
  constructor
  · rw [updateSubscriptions_events, hU, hS]
    simp [Rcd.values]
  · rw [updateSubscriptions_subscribed, hU, hS]
    rfl

/-! ## Claim C5 -/

/-- Claim **C5**: `scheduleSubscriptionUpdate` is a no-op when a reconciliation
is already pending; otherwise it sets the pending flag and hands the
reconciliation routine to the deferral function exactly once. The
reconciliation clears the pending flag first: it is already false in the
state snapshot of every callback it makes (so a throwing callback cannot
leave scheduling blocked), and false in its final state. -/
theorem claim_C5 (s : ManagerState Q) :
    (s.pendingSubscriptionUpdate = true →
      scheduleSubscriptionUpdate s = (s, 0))
    ∧ (s.pendingSubscriptionUpdate = false →
        (scheduleSubscriptionUpdate s).1
            = { s with pendingSubscriptionUpdate := true }
        ∧ (scheduleSubscriptionUpdate s).2 = 1)
    ∧ (updateSubscriptions s).1.pendingSubscriptionUpdate = false
    ∧ (∀ e ∈ (updateSubscriptions s).2, Event.pendingAtCall e = false) := by
  refine ⟨?_, ?_, updateSubscriptions_pending s,
    updateSubscriptions_pendingAtCall s⟩
  · intro h
    rw [scheduleSubscriptionUpdate, if_pos h]
  · intro h
    rw [scheduleSubscriptionUpdate, if_neg (by rw [h]; exact Bool.false_ne_true)]
    exact ⟨rfl, rfl⟩

/-- Witness for C5 at a state with no pending reconciliation: scheduling
sets the flag and invokes the deferral function once. -/
theorem claim_C5_witness :
    (scheduleSubscriptionUpdate
        ({ watchedQueryKeysByContextId := []
           watchedContexts := []
           subscribedQueryKeys := [("b", 7)]
           pendingSubscriptionUpdate := false } : ManagerState Nat)).1
      = { watchedQueryKeysByContextId := []
          watchedContexts := []
          subscribedQueryKeys := [("b", 7)]
          pendingSubscriptionUpdate := true }
    ∧ (scheduleSubscriptionUpdate
        ({ watchedQueryKeysByContextId := []
           watchedContexts := []
           subscribedQueryKeys := [("b", 7)]
           pendingSubscriptionUpdate := false } : ManagerState Nat)).2 = 1 :=
  (claim_C5
    { watchedQueryKeysByContextId := []
      watchedContexts := []
      subscribedQueryKeys := [("b", 7)]
      pendingSubscriptionUpdate := false }).2.1 rfl

/-! ## Claims about `get` (C3, C4, C10) -/

/-- Claim **C3 counterexample**: the claim says that with the flag set and no
context available, `get` fails *before invoking the configured getter*. At
this concrete input `get` does fail with the misuse error and leaves the
state untouched, but the getter has been invoked (`getterInvoked = true`,
refuting "fails before invoking"); moreover with a throwing getter the
error surfaced is the getter's own, not the misuse error, showing the
getter runs ahead of the context check (manager.ts 107 runs before 111). -/
theorem claim_C3_counterexample :
    (get (fun q : Nat => (Except.ok q : Except Unit Nat)) (fun _ => "k")
        true none
        { watchedQueryKeysByContextId := []
          watchedContexts := []
          subscribedQueryKeys := []
          pendingSubscriptionUpdate := false } 5 none).getterInvoked = true
    ∧ (get (fun q : Nat => (Except.ok q : Except Unit Nat)) (fun _ => "k")
        true none
        { watchedQueryKeysByContextId := []
          watchedContexts := []
          subscribedQueryKeys := []
          pendingSubscriptionUpdate := false } 5 none).outcome
      = Except.error (GetErr.contextError outsideContextMsg)
    ∧ (get (fun _ : Nat => (Except.error 3 : Except Nat Nat)) (fun _ => "k")
        true none
        { watchedQueryKeysByContextId := []
          watchedContexts := []
          subscribedQueryKeys := []
          pendingSubscriptionUpdate := false } 5 none).outcome
      = Except.error (GetErr.getterError 3) :=
  ⟨rfl, rfl, rfl⟩

/-- Claim **C3 (amended)**: if the global `noGetOutsideContext` flag is set and
there is no ambient Render Context and no explicit context argument, then
`get(query)` fails — but only after invoking the configured getter (whose
error, if any, propagates instead of the misuse error) — and no manager
state is mutated, no reconciliation is scheduled, and no reset is
registered. -/
theorem claim_C3 {T E : Type u} (cfgGet : Q → Except E T)
    (qts : Q → String) (s : ManagerState Q) (q : Q) :
    (get cfgGet qts true none s q none).getterInvoked = true
    ∧ (get cfgGet qts true none s q none).state = s
    ∧ (get cfgGet qts true none s q none).defers = 0
    ∧ (get cfgGet qts true none s q none).resetRegistered = false
    ∧ (∀ t, cfgGet q = .ok t →
        (get cfgGet qts true none s q none).outcome
          = .error (.contextError outsideContextMsg))
    ∧ (∀ e, cfgGet q = .error e →
        (get cfgGet qts true none s q none).outcome
          = .error (.getterError e)) := by
  cases hg : cfgGet q with
  | error e => simp [get, hg, getContext]
  | ok t => simp [get, hg, getContext]

/-- Witness for C3 (amended): with a succeeding getter, the misuse error is
surfaced after the getter ran. -/
theorem claim_C3_witness :
    (get (fun q : Nat => (Except.ok (q + 1) : Except Unit Nat)) (fun _ => "k")
        true none
        { watchedQueryKeysByContextId := []
          watchedContexts := []
          subscribedQueryKeys := []
          pendingSubscriptionUpdate := false } 5 none).outcome
      = Except.error (GetErr.contextError outsideContextMsg) :=
  (claim_C3 _ _ _ _).2.2.2.2.1 6 rfl

/-- Claim **C4**: if the configured getter throws, `get` propagates the error
unchanged, registers nothing and schedules nothing; if the getter succeeds
and a context is available (ambient or explicit), the query is registered
against that context (under its id and key), the context is recorded, a
reconciliation is scheduled, and `get` returns the getter's result
unmodified. -/
theorem claim_C4 {T E : Type u} (cfgGet : Q → Except E T)
    (qts : Q → String) (flag : Bool)
    (ambient context : Option BaseSubscriptionContext)
    (s : ManagerState Q) (q : Q) :
    (∀ e, cfgGet q = .error e →
      get cfgGet qts flag ambient s q context
        = { getterInvoked := true, state := s, defers := 0,
            resetRegistered := false, outcome := .error (.getterError e) })
    ∧ (∀ t c, cfgGet q = .ok t →
        getContext flag ambient context = .ok (some c) →
        (get cfgGet qts flag ambient s q context).outcome = .ok t
        ∧ Rcd.get?
            ((Rcd.get?
              ((get cfgGet qts flag ambient s q context).state.watchedQueryKeysByContextId)
              c.id).getD [])
            (qts q) = some q
        ∧ Rcd.get?
            ((get cfgGet qts flag ambient s q context).state.watchedContexts)
            c.id = some c
        ∧ (get cfgGet qts flag ambient s q
            context).state.pendingSubscriptionUpdate = true
        ∧ (s.pendingSubscriptionUpdate = false →
            (get cfgGet qts flag ambient s q context).defers = 1)) := by
  constructor
  · intro e he
    simp [get, he]
  · intro t c ht hc
    have hget : get cfgGet qts flag ambient s q context
        = { getterInvoked := true,
            state := (scheduleSubscriptionUpdate
              (registerQuery qts s c q).1).1,
            defers := (scheduleSubscriptionUpdate
              (registerQuery qts s c q).1).2,
            resetRegistered := (registerQuery qts s c q).2,
            outcome := .ok t } := by
      rw [get, ht, hc]
    rw [hget]
    have hwq : (registerQuery qts s c q).1.watchedQueryKeysByContextId
        = Rcd.set s.watchedQueryKeysByContextId c.id
            (Rcd.set ((Rcd.get? s.watchedQueryKeysByContextId c.id).getD [])
              (qts q) q) := rfl
    have hwc : (registerQuery qts s c q).1.watchedContexts
        = Rcd.set s.watchedContexts c.id c := rfl
    have hp : (registerQuery qts s c q).1.pendingSubscriptionUpdate
        = s.pendingSubscriptionUpdate := rfl
    cases hpe : (registerQuery qts s c q).1.pendingSubscriptionUpdate with
    | true =>
      have hsched : scheduleSubscriptionUpdate (registerQuery qts s c q).1
          = ((registerQuery qts s c q).1, 0) := by
        rw [scheduleSubscriptionUpdate, if_pos hpe]
      rw [hsched]
      refine ⟨rfl, ?_, ?_, hpe, ?_⟩
      · rw [hwq, Rcd.get?_set_self]
        simp [Rcd.get?_set_self]
      · rw [hwc, Rcd.get?_set_self]
      · intro hfalse
        rw [hp] at hpe
        rw [hfalse] at hpe
        cases hpe
    | false =>
      have hsched : scheduleSubscriptionUpdate (registerQuery qts s c q).1
          = ({ (registerQuery qts s c q).1 with
                pendingSubscriptionUpdate := true }, 1) := by
        rw [scheduleSubscriptionUpdate, if_neg (by rw [hpe]; exact Bool.false_ne_true)]
      rw [hsched]
      refine ⟨rfl, ?_, ?_, rfl, fun _ => rfl⟩
      · show Rcd.get?
            ((Rcd.get? (registerQuery qts s c q).1.watchedQueryKeysByContextId
              c.id).getD []) (qts q) = some q
        rw [hwq, Rcd.get?_set_self]
        simp [Rcd.get?_set_self]
      · show Rcd.get? (registerQuery qts s c q).1.watchedContexts c.id = some c
        rw [hwc, Rcd.get?_set_self]

/-- Witness for C4: a succeeding getter with an explicit context registers
the query and returns the value. -/
theorem claim_C4_witness :
    (get (fun q : Nat => (Except.ok (q + 1) : Except Unit Nat)) (fun _ => "k")
        true none
        { watchedQueryKeysByContextId := []
          watchedContexts := []
          subscribedQueryKeys := []
          pendingSubscriptionUpdate := false } 5
        (some { id := "7" })).outcome = Except.ok 6
    ∧ Rcd.get?
        ((Rcd.get?
          ((get (fun q : Nat => (Except.ok (q + 1) : Except Unit Nat))
              (fun _ => "k") true none
              { watchedQueryKeysByContextId := []
                watchedContexts := []
                subscribedQueryKeys := []
                pendingSubscriptionUpdate := false } 5
              (some { id := "7" })).state.watchedQueryKeysByContextId)
          (BaseSubscriptionContext.id { id := "7" })).getD [])
        ((fun _ : Nat => "k") 5) = some 5
    ∧ Rcd.get?
        ((get (fun q : Nat => (Except.ok (q + 1) : Except Unit Nat))
            (fun _ => "k") true none
            { watchedQueryKeysByContextId := []
              watchedContexts := []
              subscribedQueryKeys := []
              pendingSubscriptionUpdate := false } 5
            (some { id := "7" })).state.watchedContexts)
        (BaseSubscriptionContext.id { id := "7" }) = some { id := "7" }
    ∧ (get (fun q : Nat => (Except.ok (q + 1) : Except Unit Nat))
        (fun _ => "k") true none
        { watchedQueryKeysByContextId := []
          watchedContexts := []
          subscribedQueryKeys := []
          pendingSubscriptionUpdate := false } 5
        (some { id := "7" })).state.pendingSubscriptionUpdate = true
    ∧ (ManagerState.pendingSubscriptionUpdate
        ({ watchedQueryKeysByContextId := []
           watchedContexts := []
           subscribedQueryKeys := []
           pendingSubscriptionUpdate := false } : ManagerState Nat) = false →
        (get (fun q : Nat => (Except.ok (q + 1) : Except Unit Nat))
          (fun _ => "k") true none
          { watchedQueryKeysByContextId := []
            watchedContexts := []
            subscribedQueryKeys := []
            pendingSubscriptionUpdate := false } 5
          (some { id := "7" })).defers = 1) :=
  (claim_C4 _ _ _ _ _ _ _).2 6 { id := "7" } rfl rfl

/-- Claim **C10**: an explicitly supplied context takes precedence over the
ambient current context, and with an explicit context `get` never raises
the missing-context misuse error, for any value of the flag; when the
getter succeeds the registration goes to the explicit context. -/
theorem claim_C10 {T E : Type u} (cfgGet : Q → Except E T)
    (qts : Q → String) (flag : Bool)
    (ambient : Option BaseSubscriptionContext)
    (c : BaseSubscriptionContext) (s : ManagerState Q) (q : Q) :
    getContext flag ambient (some c) = .ok (some c)
    ∧ (∀ msg, ¬ (get cfgGet qts flag ambient s q (some c)).outcome
        = .error (.contextError msg))
    ∧ (∀ t, cfgGet q = .ok t →
        Rcd.get? ((get cfgGet qts flag ambient s q
          (some c)).state.watchedContexts) c.id = some c) := by
  have hctx : getContext flag ambient (some c) = .ok (some c) := by
    rw [getContext]
    simp
  refine ⟨hctx, ?_, ?_⟩
  · intro msg
    cases hg : cfgGet q with
    | error e => simp [get, hg]
    | ok t =>
      rw [get, hg, hctx]
      intro h
      cases h
  · intro t ht
    have hget : (get cfgGet qts flag ambient s q (some c)).state
        = (scheduleSubscriptionUpdate (registerQuery qts s c q).1).1 := by
      rw [get, ht, hctx]
    rw [hget]
    have hwc : (registerQuery qts s c q).1.watchedContexts
        = Rcd.set s.watchedContexts c.id c := rfl
    cases hpe : (registerQuery qts s c q).1.pendingSubscriptionUpdate with
    | true =>
      rw [scheduleSubscriptionUpdate, if_pos hpe]
      rw [hwc, Rcd.get?_set_self]
    | false =>
      rw [scheduleSubscriptionUpdate,
        if_neg (by rw [hpe]; exact Bool.false_ne_true)]
      show Rcd.get? (registerQuery qts s c q).1.watchedContexts c.id = some c
      rw [hwc, Rcd.get?_set_self]

/-- Witness for C10: with an ambient context "9" and explicit context "7",
the registration goes to "7". -/
theorem claim_C10_witness :
    Rcd.get?
      ((get (fun q : Nat => (Except.ok (q + 1) : Except Unit Nat))
          (fun _ => "k") true (some { id := "9" })
          { watchedQueryKeysByContextId := []
            watchedContexts := []
            subscribedQueryKeys := []
            pendingSubscriptionUpdate := false } 5
          (some { id := "7" })).state.watchedContexts)
      (BaseSubscriptionContext.id { id := "7" }) = some { id := "7" } :=
  (claim_C10 _ _ true (some { id := "9" }) { id := "7" } _ _).2.2 6 rfl

/-! ## Claim C6 -/

theorem schedule_fields (x : ManagerState Q) :
    (scheduleSubscriptionUpdate x).1.watchedQueryKeysByContextId
        = x.watchedQueryKeysByContextId
    ∧ (scheduleSubscriptionUpdate x).1.watchedContexts = x.watchedContexts
    ∧ (scheduleSubscriptionUpdate x).1.pendingSubscriptionUpdate = true := by
  cases hp : x.pendingSubscriptionUpdate with
  | true =>
    rw [scheduleSubscriptionUpdate, if_pos hp]
    exact ⟨rfl, rfl, hp⟩
  | false =>
    rw [scheduleSubscriptionUpdate,
      if_neg (by rw [hp]; exact Bool.false_ne_true)]
    exact ⟨rfl, rfl, rfl⟩

/-- Claim **C6**: `registerQuery` registers the manager's reset handler with the
context iff the context has no previously watched keys (hence at most once
per context per watch-cycle: a second registration in the same cycle does
not re-register), then records the query under the context's id and key
and records the context; when `reset` fires for a context, all of that
context's watched-query entries and its dispatch entry are removed (other
contexts untouched) and a reconciliation is scheduled. -/
theorem claim_C6 (qts : Q → String) (s : ManagerState Q)
    (c : BaseSubscriptionContext) (q q' : Q) (id' : String) :
    ((registerQuery qts s c q).2 = true ↔
      (∀ k, Rcd.hasKey
        ((Rcd.get? s.watchedQueryKeysByContextId c.id).getD []) k = false))
    ∧ Rcd.get?
        ((Rcd.get? ((registerQuery qts s c q).1.watchedQueryKeysByContextId)
          c.id).getD []) (qts q) = some q
    ∧ Rcd.get? ((registerQuery qts s c q).1.watchedContexts) c.id = some c
    ∧ (registerQuery qts (registerQuery qts s c q).1 c q').2 = false
    ∧ Rcd.get? ((reset s c).1.watchedQueryKeysByContextId) c.id = none
    ∧ Rcd.get? ((reset s c).1.watchedContexts) c.id = none
    ∧ (¬ id' = c.id →
        Rcd.get? ((reset s c).1.watchedQueryKeysByContextId) id'
          = Rcd.get? s.watchedQueryKeysByContextId id')
    ∧ (reset s c).1.pendingSubscriptionUpdate = true
    ∧ (s.pendingSubscriptionUpdate = false → (reset s c).2 = 1) := by
  refine ⟨?_, ?_, ?_, ?_, ?_, ?_, ?_, ?_, ?_⟩
  · show decide
        ((Rcd.keys ((Rcd.get? s.watchedQueryKeysByContextId c.id).getD [])).length
          = 0) = true ↔ _
    rw [decide_eq_true_eq]
    constructor
    · intro h k
      have hnil : (Rcd.get? s.watchedQueryKeysByContextId c.id).getD []
          = ([] : Rcd Q) :=
        List.map_eq_nil_iff.1 (List.length_eq_zero.1 h)
      rw [hnil]
      rfl
    · intro h
      rw [eq_nil_of_hasKey_false _ h]
      rfl
  · show Rcd.get?
        ((Rcd.get?
          (Rcd.set s.watchedQueryKeysByContextId c.id
            (Rcd.set ((Rcd.get? s.watchedQueryKeysByContextId c.id).getD [])
              (qts q) q)) c.id).getD []) (qts q) = some q
    rw [Rcd.get?_set_self]
    exact Rcd.get?_set_self _ _ _
  · exact Rcd.get?_set_self _ _ _
  · show decide
        ((Rcd.keys
          ((Rcd.get?
            (registerQuery qts s c q).1.watchedQueryKeysByContextId
            c.id).getD [])).length = 0) = false
    have hq : Rcd.get?
        (registerQuery qts s c q).1.watchedQueryKeysByContextId c.id
        = some (Rcd.set ((Rcd.get? s.watchedQueryKeysByContextId c.id).getD [])
            (qts q) q) := Rcd.get?_set_self _ _ _
    rw [hq]
    apply decide_eq_false
    intro hlen
    exact Rcd.set_ne_nil _ _ _
      (List.map_eq_nil_iff.1 (List.length_eq_zero.1 hlen))
  · rw [reset, (schedule_fields _).1]
    exact Rcd.get?_delete_self _ _
  · rw [reset, (schedule_fields _).2.1]
    exact Rcd.get?_delete_self _ _
  · intro hne
    rw [reset, (schedule_fields _).1]
    exact Rcd.get?_delete_other _ _ _ hne
  · rw [reset]
    exact (schedule_fields _).2.2
  · intro hp
    have hpend : (ManagerState.pendingSubscriptionUpdate
        { s with
            watchedQueryKeysByContextId :=
              Rcd.delete s.watchedQueryKeysByContextId c.id
            watchedContexts := Rcd.delete s.watchedContexts c.id }) = false :=
      hp
    rw [reset, scheduleSubscriptionUpdate,
      if_neg (by rw [hpend]; exact Bool.false_ne_true)]

/-- Witness for C6: resetting context "1" keeps context "2" watched and
invokes the deferral function once when none was pending. -/
theorem claim_C6_witness :
    Rcd.get?
        ((reset
          ({ watchedQueryKeysByContextId :=
              [("1", [("a", 5)]), ("2", [("b", 7)])]
             watchedContexts := [("1", { id := "1" }), ("2", { id := "2" })]
             subscribedQueryKeys := []
             pendingSubscriptionUpdate := false } : ManagerState Nat)
          { id := "1" }).1.watchedQueryKeysByContextId) "2"
      = Rcd.get?
          (ManagerState.watchedQueryKeysByContextId
            ({ watchedQueryKeysByContextId :=
                [("1", [("a", 5)]), ("2", [("b", 7)])]
               watchedContexts := [("1", { id := "1" }), ("2", { id := "2" })]
               subscribedQueryKeys := []
               pendingSubscriptionUpdate := false } : ManagerState Nat)) "2"
    ∧ (reset
        ({ watchedQueryKeysByContextId :=
            [("1", [("a", 5)]), ("2", [("b", 7)])]
           watchedContexts := [("1", { id := "1" }), ("2", { id := "2" })]
           subscribedQueryKeys := []
           pendingSubscriptionUpdate := false } : ManagerState Nat)
        { id := "1" }).2 = 1 :=
  ⟨(claim_C6 (fun _ => "k")
      { watchedQueryKeysByContextId := [("1", [("a", 5)]), ("2", [("b", 7)])]
        watchedContexts := [("1", { id := "1" }), ("2", { id := "2" })]
        subscribedQueryKeys := []
        pendingSubscriptionUpdate := false }
      { id := "1" } 5 5 ("2")).2.2.2.2.2.2.1 (by decide),
   (claim_C6 (fun _ => "k")
      { watchedQueryKeysByContextId := [("1", [("a", 5)]), ("2", [("b", 7)])]
        watchedContexts := [("1", { id := "1" }), ("2", { id := "2" })]
        subscribedQueryKeys := []
        pendingSubscriptionUpdate := false }
      { id := "1" } 5 5 ("2")).2.2.2.2.2.2.2.2 rfl⟩

/-! ## Claim C7 -/

/-- Claim **C7**: the default key derivation returns the query itself when it is
a string; the empty string when it is `undefined`; the query's `key`
attribute when that attribute is a string; otherwise the query's own
`toString()` result when it has an own `toString` member; and fails when
none of these apply — in particular it fails for every falsy non-undefined
non-string query. -/
theorem claim_C7 :
    (∀ s, defaultQueryToString (.str s) = .ok s)
    ∧ defaultQueryToString .undefined = .ok ""
    ∧ (∀ v : JSValue, v.truthy = true → ∀ k, v.keyAttr = some k →
        defaultQueryToString v = .ok k)
    ∧ (∀ v : JSValue, v.truthy = true → v.keyAttr = none →
        v.hasOwnToString = true →
        defaultQueryToString v = .ok v.toStringVal)
    ∧ (∀ v : JSValue, v.truthy = true → v.isString = false →
        v.keyAttr = none → v.hasOwnToString = false →
        defaultQueryToString v = .error noStringFormMsg)
    ∧ (∀ v : JSValue, v.truthy = false → v.isUndefined = false →
        v.isString = false →
        defaultQueryToString v = .error falseyQueryMsg) := by
  refine ⟨fun s => rfl, rfl, ?_, ?_, ?_, ?_⟩
  · intro v htr k hk
    cases v with
    | object a t ts =>
      cases hk
      rfl
    | str s => cases hk
    | undefined => cases hk
    | null => cases hk
    | boolean b => cases hk
    | number n => cases hk
  · intro v htr hk ht
    cases v with
    | object a t ts =>
      cases hk
      cases ht
      rfl
    | str s => cases ht
    | undefined => cases ht
    | null => cases ht
    | boolean b => cases ht
    | number n => cases ht
  · intro v htr hs hk ht
    cases v with
    | object a t ts =>
      cases hk
      cases ht
      rfl
    | str s => cases hs
    | undefined => cases htr
    | null => cases htr
    | boolean b =>
      cases b with
      | true => simp [defaultQueryToString, JSValue.truthy, JSValue.keyAttr,
          JSValue.hasOwnToString]
      | false => cases htr
    | number n =>
      by_cases hn : n = 0
      · rw [hn] at htr
        cases htr
      · simp [defaultQueryToString, JSValue.truthy, hn, JSValue.keyAttr,
          JSValue.hasOwnToString]
  · intro v hf hu hs
    cases v with
    | str s => cases hs
    | undefined => cases hu
    | null => rfl
    | boolean b =>
      cases b with
      | true => cases hf
      | false => rfl
    | number n =>
      by_cases hn : n = 0
      · rw [hn]
        rfl
      · exact absurd hf (by simp [JSValue.truthy, hn])
    | object a t ts => cases hf

/-- Witness for C7: `null` is falsy, non-undefined and not a string, and
the default codec rejects it with the falsy-query error. -/
theorem claim_C7_witness :
    defaultQueryToString JSValue.null = .error falseyQueryMsg :=
  claim_C7.2.2.2.2.2 JSValue.null rfl rfl rfl

/-! ## Claim C8 -/
/-- Claim **C8** (code bug, evaluated at the failing input): the claim —
every registered context whose watched set contains at least one matching
query has its `forceUpdate` invoked exactly once, and the no-argument
form matches every context with at least one watched query — is the
spec's and the code comments' clear intent, but manager.ts 269 computes
`doUpdate` as `!!Object.keys(queryKeys).find(...)`, coercing the *found
key string*: when context "1" watches only the valid empty-string key
(the default codec maps `undefined` to `""`, manager.ts 53, and the 196
comment says a falsy key is valid), the no-argument `updateQueries`
matches its watched query (first conjunct) yet force-updates nothing and
throws nothing (second conjunct), while the same state under the
non-empty key "a" is force-updated exactly once (third conjunct). The
list form drops matches the same way: a falsy supplied query whose key
equals the tested query's key fails the test (fourth conjunct). -/
theorem claim_C8 :
    (([(("" : String), (5 : Nat))] : Rcd Nat).any
        (fun kq => updateQueriesTestFn (fun _ => true) (fun _ => "")
          UpdateParam.all kq.2) = true)
    ∧ updateQueries (fun _ : Nat => true) (fun _ => "")
        { watchedQueryKeysByContextId := [("1", [("", 5)])]
          watchedContexts := [("1", { id := "1" })]
          subscribedQueryKeys := []
          pendingSubscriptionUpdate := false }
        UpdateParam.all
      = ([], none)
    ∧ updateQueries (fun _ : Nat => true) (fun _ => "")
        { watchedQueryKeysByContextId := [("1", [("a", 5)])]
          watchedContexts := [("1", { id := "1" })]
          subscribedQueryKeys := []
          pendingSubscriptionUpdate := false }
        UpdateParam.all
      = ([{ id := "1" }], none)
    ∧ updateQueriesTestFn (fun s : String => ¬ s = "") (fun s => s)
        (UpdateParam.list [""]) "" = false :=
  ⟨by decide, by decide, by decide, by decide⟩

end ReactSub
